import Mathlib

/-!
Shallow embedding of the work_time_back shift-scheduling backend.

Times of day are modelled as natural numbers (minutes since midnight);
calendar dates as natural numbers (days since a Monday epoch), so that
the weekday of a date d is d % 7, matching Python's date.weekday()
convention (Monday = 0).  Database rows become Lean structures, tables
become lists, SQLAlchemy queries become list filters, and HTTP errors
become an explicit error type returned through Except.

The embedded functions follow app/services/schedule_calc.py and
app/routers/requests.py of the repository.
-/

namespace WorkTime

/-- Roles from models.UserRole. -/
inductive UserRole where
  | MASTER
  | OPERATOR
  | MEMBER
deriving DecidableEq, Repr

/-- Request types from models.RequestType. -/
inductive RequestType where
  | ABSENCE
  | EXTRA
deriving DecidableEq, Repr

/-- Request lifecycle states from models.RequestStatus. -/
inductive RequestStatus where
  | PENDING
  | APPROVED
  | REJECTED
  | CANCELLED
deriving DecidableEq, Repr

/-- Row of the users table (fields used by the schedule and request code). -/
structure User where
  id : Nat
  name : String
  role : UserRole
deriving DecidableEq, Repr

/-- Row of the shifts table (a shift template). -/
structure Shift where
  id : Nat
  name : String
  weekday : Nat
  start_time : Nat
  end_time : Nat
  loc : Option String
deriving DecidableEq, Repr

/-- Row of the user_shifts table (a recurring assignment). -/
structure UserShift where
  user_id : Nat
  shift_id : Nat
  valid_from : Nat
  valid_to : Option Nat
deriving DecidableEq, Repr

/-- Row of the shift_requests table. -/
structure ShiftRequest where
  id : Nat
  user_id : Nat
  type : RequestType
  target_date : Nat
  target_shift_id : Nat
  target_start_time : Option Nat
  target_end_time : Option Nat
  reason : Option String
  status : RequestStatus
  operator_id : Option Nat := none
  cancelled_after_approval : Bool := false
  cancel_reason : Option String := none
deriving DecidableEq, Repr

/-- Derived schedule event, mirroring schemas.ScheduleEvent with its
defaults (valid_from, valid_to default to none, source to BASE). -/
structure ScheduleEvent where
  user_id : Nat
  user_name : String
  role : UserRole
  date : Nat
  start_time : Nat
  end_time : Nat
  shift_id : Nat
  shift_name : String
  loc : Option String
  valid_from : Option Nat := none
  valid_to : Option Nat := none
  source : String := "BASE"
deriving DecidableEq, Repr

/-- In-memory database: the four tables the request/schedule code reads. -/
structure DB where
  users : List User
  shifts : List Shift
  user_shifts : List UserShift
  requests : List ShiftRequest
deriving DecidableEq, Repr

/-- Primary-key lookup in the users table. -/
def findUser (db : DB) (uid : Nat) : Option User :=
  db.users.find? (fun u => decide (u.id = uid))

/-- Primary-key lookup in the shifts table. -/
def findShift (db : DB) (sid : Nat) : Option Shift :=
  db.shifts.find? (fun s => decide (s.id = sid))

/-- Embedding of schedule_calc._valid_for_date: the assignment's validity
window covers the target date. -/
def valid_for_date (a : UserShift) (target : Nat) : Bool :=
  if target < a.valid_from then false
  else
    match a.valid_to with
    | some vt => if vt < target then false else true
    | none => true

/-- Optional user filter, as applied by the SQLAlchemy queries. -/
def userMatches (uf : Option Nat) (uid : Nat) : Bool :=
  match uf with
  | some u => decide (uid = u)
  | none => true

/-- Assignments joined with their shift and user rows (the inner joins of
the assignment query in week_events), optionally filtered by user. -/
def joinedAssignments (db : DB) (uf : Option Nat) : List (UserShift × Shift × User) :=
  (db.user_shifts.filter (fun a => userMatches uf a.user_id)).filterMap
    (fun a => (findShift db a.shift_id).bind
      (fun s => (findUser db a.user_id).map (fun u => (a, s, u))))

/-- Requests with status APPROVED and target_date inside the 7-day window
starting at start, optionally filtered by user (week_events lines 25-32). -/
def approvedRequestsInWeek (db : DB) (start : Nat) (uf : Option Nat) : List ShiftRequest :=
  db.requests.filter (fun r =>
    decide (r.status = RequestStatus.APPROVED) &&
    decide (start ≤ r.target_date) && decide (r.target_date ≤ start + 6) &&
    userMatches uf r.user_id)

/-- BASE event emitted for an assignment on a concrete date
(week_events lines 46-61). -/
def mkBaseEvent (a : UserShift) (s : Shift) (u : User) (d : Nat) : ScheduleEvent :=
  { user_id := a.user_id
    user_name := u.name
    role := u.role
    date := d
    start_time := s.start_time
    end_time := s.end_time
    shift_id := a.shift_id
    shift_name := s.name
    loc := s.loc
    valid_from := some a.valid_from
    valid_to := a.valid_to
    source := "BASE" }

/-- BASE events of the week: for each of the 7 dates, every joined
assignment valid on that date whose shift weekday matches it. -/
def baseEvents (db : DB) (start : Nat) (uf : Option Nat) : List ScheduleEvent :=
  (List.range 7).flatMap (fun offset =>
    (joinedAssignments db uf).filterMap (fun asu =>
      let d := start + offset
      if valid_for_date asu.1 d && decide (asu.2.1.weekday = d % 7)
      then some (mkBaseEvent asu.1 asu.2.1 asu.2.2 d) else none))

/-- Sub-event constructed when an absence splits a segment: every field is
copied from the segment except the two times; valid_from and valid_to are
not passed, so they take the schema defaults none
(week_events lines 83-96 and 97-111). -/
def subEvent (seg : ScheduleEvent) (st en : Nat) : ScheduleEvent :=
  { user_id := seg.user_id
    user_name := seg.user_name
    role := seg.role
    date := seg.date
    start_time := st
    end_time := en
    shift_id := seg.shift_id
    shift_name := seg.shift_name
    loc := seg.loc
    source := seg.source }

/-- One absence window [a, b) applied to one live segment
(week_events lines 78-111): a disjoint segment survives unchanged, and a
left and/or right remainder is emitted when strictly nonempty. -/
def cutSeg (a b : Nat) (seg : ScheduleEvent) : List ScheduleEvent :=
  if b ≤ seg.start_time ∨ seg.end_time ≤ a then [seg]
  else
    (if seg.start_time < a then [subEvent seg seg.start_time a] else []) ++
    (if b < seg.end_time then [subEvent seg b seg.end_time] else [])

/-- One absence window applied to every live segment. -/
def applyCut (a b : Nat) (segs : List ScheduleEvent) : List ScheduleEvent :=
  segs.flatMap (cutSeg a b)

/-- Window of an absence request resolved against the base event: a
missing bound defaults to the corresponding bound of the base interval
(week_events lines 75-76). -/
def cutWindow (ev : ScheduleEvent) (r : ShiftRequest) : Nat × Nat :=
  (r.target_start_time.getD ev.start_time, r.target_end_time.getD ev.end_time)

/-- Absence requests of the grouped dictionary entry for the base event's
(user, date, shift) key, in request-list order (week_events lines 63-72). -/
def absencesFor (reqs : List ShiftRequest) (ev : ScheduleEvent) : List ShiftRequest :=
  reqs.filter (fun r =>
    decide (r.type = RequestType.ABSENCE) && decide (r.user_id = ev.user_id) &&
    decide (r.target_date = ev.date) && decide (r.target_shift_id = ev.shift_id))

/-- Sequential application of a list of absence cuts to one base event
(week_events lines 73-112). -/
def splitEvent (ev : ScheduleEvent) (cuts : List ShiftRequest) : List ScheduleEvent :=
  cuts.foldl
    (fun segs r => applyCut (cutWindow ev r).1 (cutWindow ev r).2 segs) [ev]

/-- Surviving BASE-derived segments of the week
(week_events lines 69-113). -/
def filteredEvents (db : DB) (start : Nat) (uf : Option Nat) : List ScheduleEvent :=
  (baseEvents db start uf).flatMap (fun ev =>
    splitEvent ev (absencesFor (approvedRequestsInWeek db start uf) ev))

/-- EXTRA event built from an approved EXTRA request; none when the
referenced shift or user row is missing (week_events lines 117-141). -/
def mkExtra (db : DB) (r : ShiftRequest) : Option ScheduleEvent :=
  match findShift db r.target_shift_id, findUser db r.user_id with
  | some s, some u =>
      some
        { user_id := u.id
          user_name := u.name
          role := u.role
          date := r.target_date
          start_time := r.target_start_time.getD s.start_time
          end_time := r.target_end_time.getD s.end_time
          shift_id := s.id
          shift_name := s.name
          loc := s.loc
          valid_from := none
          valid_to := none
          source := "EXTRA" }
  | _, _ => none

/-- EXTRA events of the week (week_events lines 115-141). -/
def extraEvents (db : DB) (start : Nat) (uf : Option Nat) : List ScheduleEvent :=
  ((approvedRequestsInWeek db start uf).filter
    (fun r => decide (r.type = RequestType.EXTRA))).filterMap (mkExtra db)

/-- Embedding of schedule_calc.week_events: surviving BASE-derived
segments followed by EXTRA events. -/
def week_events (db : DB) (start : Nat) (uf : Option Nat) : List ScheduleEvent :=
  filteredEvents db start uf ++ extraEvents db start uf

/-- HTTP error raised by the request router, identified by status code and
detail message. -/
structure Err where
  status_code : Nat
  detail : String
deriving DecidableEq, Repr

/-- Range element of the request payload (schemas.RequestRange). -/
structure RequestRange where
  shift_id : Nat
  start_hour : Option Nat
  end_hour : Option Nat
deriving DecidableEq, Repr

/-- Request payload (schemas.RequestCreate). -/
structure RequestCreate where
  type : RequestType
  target_date : Nat
  target_shift_id : Option Nat := none
  target_shift_ids : Option (List Nat) := none
  target_ranges : Option (List RequestRange) := none
  reason : String
  user_id : Option Nat := none
deriving DecidableEq, Repr

/-- Numeric rank of the role hierarchy used by core.roles.require_role. -/
def roleOrder : UserRole → Nat
  | UserRole.MEMBER => 1
  | UserRole.OPERATOR => 2
  | UserRole.MASTER => 3

/-- Embedding of requests._time_window_from_range: both bounds missing
gives the empty window, a malformed range (start_hour at or after
end_hour) is a 400 error, otherwise the hour pair becomes a time pair. -/
def time_window_from_range (start_hour end_hour : Option Nat) :
    Except Err (Option Nat × Option Nat) :=
  match start_hour, end_hour with
  | some sh, some eh =>
      if eh ≤ sh then Except.error ⟨400, "시간 범위가 올바르지 않습니다"⟩
      else Except.ok (some (sh * 60), some (eh * 60))
  | _, _ => Except.ok (none, none)

/-- Embedding of requests._overlaps: a missing bound means full range. -/
def overlaps (a1 a2 b1 b2 : Option Nat) : Bool :=
  match a1, a2, b1, b2 with
  | some x1, some x2, some y1, some y2 => decide (x1 < y2) && decide (y1 < x2)
  | _, _, _, _ => true

/-- Embedding of requests._week_start: the Monday of the week of d. -/
def week_start (d : Nat) : Nat := d - d % 7

/-- Shift id list of the payload, after the falsy-coalescing of
submit_request line 66 (an empty list counts as absent). -/
def payloadShiftIds (p : RequestCreate) : List Nat :=
  match p.target_shift_ids with
  | some l => if l.isEmpty then p.target_shift_id.toList else l
  | none => p.target_shift_id.toList

/-- Range list actually processed by submit_request (lines 67-69): the
explicit ranges when nonempty, otherwise one full-window range per shift
id. -/
def payloadRanges (p : RequestCreate) : List RequestRange :=
  let ranges0 := p.target_ranges.getD []
  if ranges0.isEmpty then (payloadShiftIds p).map (fun sid => ⟨sid, none, none⟩)
  else ranges0

/-- Effective slot keys (shift id, date) of the target user's week,
computed from week_events (submit_request lines 74-76). -/
def effectiveSlots (db : DB) (uid : Nat) (tdate : Nat) : List (Nat × Nat) :=
  (week_events db (week_start tdate) (some uid)).map (fun ev => (ev.shift_id, ev.date))

/-- Existing PENDING request for the same (user, date, shift) key whose
window overlaps the requested one (submit_request lines 91-99). -/
def pendingOverlapExists (db : DB) (uid : Nat) (tdate : Nat) (sid : Nat)
    (st en : Option Nat) : Bool :=
  (db.requests.filter (fun q =>
    decide (q.user_id = uid) && decide (q.target_date = tdate) &&
    decide (q.target_shift_id = sid) &&
    decide (q.status = RequestStatus.PENDING))).any
    (fun dup => overlaps st en dup.target_start_time dup.target_end_time)

/-- Body of the per-range loop of submit_request (lines 79-118): shift
lookup, weekday check, window parsing, absence bounds check, duplicate
guard, state-consistency guard, then creation of one PENDING request. -/
def processRange (db : DB) (uid : Nat) (ty : RequestType) (tdate : Nat)
    (slots : List (Nat × Nat)) (reason : String) (r : RequestRange) :
    Except Err ShiftRequest :=
  match findShift db r.shift_id with
  | none => Except.error ⟨404, "선택한 시간 슬롯 정보를 찾을 수 없습니다"⟩
  | some shift =>
    if ¬ shift.weekday = tdate % 7 then
      Except.error ⟨400, "선택한 날짜와 슬롯의 요일이 일치하지 않습니다"⟩
    else
      match time_window_from_range r.start_hour r.end_hour with
      | Except.error e => Except.error e
      | Except.ok (start_time, end_time) =>
        if (match ty, start_time, end_time with
            | RequestType.ABSENCE, some st, some en =>
                decide (st < shift.start_time) || decide (shift.end_time < en)
            | _, _, _ => false) then
          Except.error ⟨400, "선택 시간이 배정된 시간 범위를 벗어났습니다"⟩
        else if pendingOverlapExists db uid tdate r.shift_id start_time end_time then
          Except.error ⟨409, "이미 동일한 시간에 대기 중인 신청이 있습니다"⟩
        else
          if ty = RequestType.ABSENCE ∧ slots.contains (r.shift_id, tdate) = false then
            Except.error ⟨400, "결근 신청은 현재 배정된 시간에서만 가능합니다"⟩
          else if ty = RequestType.EXTRA ∧ slots.contains (r.shift_id, tdate) = true then
            Except.error ⟨400, "이미 배정된 시간에는 추가 근무를 신청할 수 없습니다"⟩
          else
            Except.ok
              { id := 0
                user_id := uid
                type := ty
                target_date := tdate
                target_shift_id := r.shift_id
                target_start_time := start_time
                target_end_time := end_time
                reason := some reason
                status := RequestStatus.PENDING }

/-- Sequential processing of the range list: the first error aborts the
whole call (the raised HTTPException rolls the transaction back, so no
request is created). -/
def processRanges (db : DB) (uid : Nat) (ty : RequestType) (tdate : Nat)
    (slots : List (Nat × Nat)) (reason : String) :
    List RequestRange → Except Err (List ShiftRequest)
  | [] => Except.ok []
  | r :: rest =>
      match processRange db uid ty tdate slots reason r with
      | Except.error e => Except.error e
      | Except.ok req =>
          match processRanges db uid ty tdate slots reason rest with
          | Except.error e => Except.error e
          | Except.ok reqs => Except.ok (req :: reqs)

/-- Embedding of requests.submit_request: authorization guards, range
computation, effective-slot computation via week_events, then the
per-range loop.  A returned error models the raised HTTPException (the
transaction is rolled back and no request is created). -/
def submit_request (db : DB) (current : User) (p : RequestCreate) :
    Except Err (List ShiftRequest) :=
  if roleOrder current.role < roleOrder UserRole.MEMBER then
    Except.error ⟨403, "Insufficient permissions"⟩
  else
    match findUser db (p.user_id.getD current.id) with
    | none => Except.error ⟨404, "신청 대상 사용자를 찾을 수 없습니다"⟩
    | some target_user =>
      if ¬ target_user.role = UserRole.MEMBER then
        Except.error ⟨400, "마스터/운영자는 근무 변경 신청 대상에서 제외됩니다"⟩
      else if current.role = UserRole.OPERATOR ∧ target_user.role = UserRole.MASTER then
        Except.error ⟨403, "운영자는 마스터 대신 신청할 수 없습니다"⟩
      else if current.role = UserRole.MEMBER ∧ ¬ p.user_id.getD current.id = current.id then
        Except.error ⟨403, "구성원은 본인 계정으로만 신청할 수 있습니다"⟩
      else
        if (payloadRanges p).isEmpty then
          Except.error ⟨400, "선택된 시간 구간이 없습니다"⟩
        else
          processRanges db (p.user_id.getD current.id) p.type p.target_date
            (effectiveSlots db (p.user_id.getD current.id) p.target_date)
            p.reason (payloadRanges p)

/-- Embedding of requests.approve_request on a found request row: refuses
CANCELLED and already-APPROVED rows, otherwise sets status APPROVED and
records the operator. -/
def approve_request (current : User) (req : ShiftRequest) :
    Except Err ShiftRequest :=
  if roleOrder current.role < roleOrder UserRole.OPERATOR then
    Except.error ⟨403, "Insufficient permissions"⟩
  else if req.status = RequestStatus.CANCELLED then
    Except.error ⟨400, "취소된 신청은 승인할 수 없습니다"⟩
  else if req.status = RequestStatus.APPROVED then
    Except.error ⟨400, "이미 승인된 신청입니다"⟩
  else
    Except.ok { req with
      status := RequestStatus.APPROVED
      operator_id := some current.id }

/-- Embedding of requests.reject_request on a found request row: refuses
CANCELLED and already-REJECTED rows, otherwise sets status REJECTED. -/
def reject_request (current : User) (req : ShiftRequest) :
    Except Err ShiftRequest :=
  if roleOrder current.role < roleOrder UserRole.OPERATOR then
    Except.error ⟨403, "Insufficient permissions"⟩
  else if req.status = RequestStatus.CANCELLED ∨ req.status = RequestStatus.REJECTED then
    Except.error ⟨400, "이미 처리된 신청입니다"⟩
  else
    Except.ok { req with
      status := RequestStatus.REJECTED
      cancel_reason := some "REJECTED"
      operator_id := some current.id }

/-- Embedding of requests.cancel_request on a found request row: a member
may only cancel their own request, only PENDING or APPROVED rows may be
cancelled, and a previously APPROVED row is flagged
cancelled_after_approval. -/
def cancel_request (current : User) (req : ShiftRequest) :
    Except Err ShiftRequest :=
  if roleOrder current.role < roleOrder UserRole.MEMBER then
    Except.error ⟨403, "Insufficient permissions"⟩
  else if current.role = UserRole.MEMBER ∧ ¬ req.user_id = current.id then
    Except.error ⟨403, "본인 신청만 취소할 수 있습니다"⟩
  else if ¬ (req.status = RequestStatus.PENDING ∨ req.status = RequestStatus.APPROVED) then
    Except.error ⟨400, "대기 또는 승인된 건만 취소할 수 있습니다"⟩
  else
    let was_approved := req.status = RequestStatus.APPROVED
    Except.ok { req with
      status := RequestStatus.CANCELLED
      cancel_reason := some "USER_CANCEL"
      cancelled_after_approval :=
        if was_approved then true else req.cancelled_after_approval
      operator_id := some current.id }

/-- Lookup of a request row by id, as each lifecycle endpoint performs
first thing in its body (requests.py lines 218, 249, 275). -/
def findRequest (db : DB) (request_id : Nat) : Option ShiftRequest :=
  db.requests.find? (fun q => decide (q.id = request_id))

/-- Full approve endpoint (requests.py lines 247-259): the operator-role
dependency, then the row lookup with its 404, then the status guards of
approve_request (whose own role guard re-evaluates the dependency's
condition, already known false at this point). -/
def approve_request_route (db : DB) (current : User) (request_id : Nat) :
    Except Err ShiftRequest :=
  if roleOrder current.role < roleOrder UserRole.OPERATOR then
    Except.error ⟨403, "Insufficient permissions"⟩
  else
    match findRequest db request_id with
    | none => Except.error ⟨404, "신청 건을 찾을 수 없습니다"⟩
    | some req => approve_request current req

/-- Full reject endpoint (requests.py lines 273-284): the operator-role
dependency, then the row lookup with its 404, then the status guards of
reject_request. -/
def reject_request_route (db : DB) (current : User) (request_id : Nat) :
    Except Err ShiftRequest :=
  if roleOrder current.role < roleOrder UserRole.OPERATOR then
    Except.error ⟨403, "Insufficient permissions"⟩
  else
    match findRequest db request_id with
    | none => Except.error ⟨404, "신청 건을 찾을 수 없습니다"⟩
    | some req => reject_request current req

/-- Full cancel endpoint (requests.py lines 216-244): the member-role
dependency, then the row lookup with its 404, then the ownership and
status guards of cancel_request. -/
def cancel_request_route (db : DB) (current : User) (request_id : Nat) :
    Except Err ShiftRequest :=
  if roleOrder current.role < roleOrder UserRole.MEMBER then
    Except.error ⟨403, "Insufficient permissions"⟩
  else
    match findRequest db request_id with
    | none => Except.error ⟨404, "신청 건을 찾을 수 없습니다"⟩
    | some req => cancel_request current req

/-- Coverage of a time point by a list of plain intervals. -/
def pcovers (l : List (Nat × Nat)) (t : Nat) : Prop :=
  ∃ p ∈ l, p.1 ≤ t ∧ t < p.2

/-- Coverage of a time point by a list of schedule events. -/
def covers (l : List ScheduleEvent) (t : Nat) : Prop :=
  ∃ p ∈ l, p.start_time ≤ t ∧ t < p.end_time

/-- Interval skeleton of an event list. -/
def timesOf (l : List ScheduleEvent) : List (Nat × Nat) :=
  l.map (fun s => (s.start_time, s.end_time))

/-- Canonical shape of a live segment of the splitting loop over base
event ev: the original event when it still carries the full base window,
otherwise a sub-event (which dropped the validity tag). -/
def evPiece (ev : ScheduleEvent) (st en : Nat) : ScheduleEvent :=
  if st = ev.start_time ∧ en = ev.end_time then ev else subEvent ev st en

/-- Invariant of every live segment of the splitting loop over ev: it
lies inside the base window, is nonempty, and has canonical shape. -/
def segInv (ev seg : ScheduleEvent) : Prop :=
  ev.start_time ≤ seg.start_time ∧ seg.end_time ≤ ev.end_time ∧
  seg.start_time < seg.end_time ∧
  seg = evPiece ev seg.start_time seg.end_time

/-- Separation of two segments: the first ends strictly before the
second starts. -/
def segSep (p q : ScheduleEvent) : Prop := p.end_time < q.start_time

/-- Resolved cut window of an absence request against a base event is a
genuine interval. -/
def wfCut (ev : ScheduleEvent) (r : ShiftRequest) : Prop :=
  (cutWindow ev r).1 < (cutWindow ev r).2

instance (ev : ScheduleEvent) (r : ShiftRequest) : Decidable (wfCut ev r) := by
  unfold wfCut
  infer_instance

/-- Splitting fold with an arbitrary starting segment list; splitEvent is
this fold started from the single base event. -/
def applyCuts (ev : ScheduleEvent) (segs : List ScheduleEvent)
    (cuts : List ShiftRequest) : List ScheduleEvent :=
  cuts.foldl
    (fun segs r => applyCut (cutWindow ev r).1 (cutWindow ev r).2 segs) segs

/-- Sample member user for concrete evaluations. -/
def uMember : User := ⟨1, "kim", UserRole.MEMBER⟩

/-- Sample operator user. -/
def uOperator : User := ⟨2, "lee", UserRole.OPERATOR⟩

/-- Sample master user. -/
def uMaster : User := ⟨3, "park", UserRole.MASTER⟩

/-- Sample Monday shift template, 09:00-18:00. -/
def shiftMon : Shift := ⟨10, "morning", 0, 540, 1080, some "reading-room"⟩

/-- Sample recurring assignment of uMember to shiftMon, valid from day 0,
open-ended. -/
def asgMember : UserShift := ⟨1, 10, 0, none⟩

/-- Sample BASE event: the assignment instantiated on day 7 (a Monday). -/
def evC : ScheduleEvent := mkBaseEvent asgMember shiftMon uMember 7

/-- Approved partial absence 12:00-13:00 on the sample slot. -/
def absWindow : ShiftRequest :=
  ⟨20, 1, RequestType.ABSENCE, 7, 10, some 720, some 780, some "lunch",
    RequestStatus.APPROVED, none, false, none⟩

/-- Approved partial absence 10:00-11:00 on the sample slot. -/
def absWindow2 : ShiftRequest :=
  ⟨22, 1, RequestType.ABSENCE, 7, 10, some 600, some 660, some "errand",
    RequestStatus.APPROVED, none, false, none⟩

/-- Approved full-day absence (no window) on the sample slot. -/
def absFull : ShiftRequest :=
  ⟨21, 1, RequestType.ABSENCE, 7, 10, none, none, some "sick",
    RequestStatus.APPROVED, none, false, none⟩

/-- Rejected full-window absence request on the sample slot. -/
def reqRejected : ShiftRequest :=
  ⟨50, 1, RequestType.ABSENCE, 7, 10, none, none, some "old",
    RequestStatus.REJECTED, some 2, false, some "REJECTED"⟩

/-- Pending full-window absence request on the sample slot. -/
def reqPending : ShiftRequest :=
  ⟨51, 1, RequestType.ABSENCE, 7, 10, none, none, some "waiting",
    RequestStatus.PENDING, none, false, none⟩

/-- Approved extra request with a partial window on the sample slot for
day 8 (a Tuesday would mismatch; extras are not weekday-checked at query
time), here kept on day 7. -/
def reqExtra : ShiftRequest :=
  ⟨52, 2, RequestType.EXTRA, 7, 10, some 600, some 720, some "cover",
    RequestStatus.APPROVED, none, false, none⟩

/-- Approved extra request whose shift id dangles (no such shift row). -/
def reqExtraDangling : ShiftRequest :=
  ⟨53, 1, RequestType.EXTRA, 8, 999, none, none, some "dangling",
    RequestStatus.APPROVED, none, false, none⟩

/-- Approved request row used for cancellation scenarios. -/
def reqApproved : ShiftRequest :=
  ⟨54, 1, RequestType.ABSENCE, 7, 10, some 720, some 780, some "appr",
    RequestStatus.APPROVED, some 2, false, none⟩

/-- Cancelled request row. -/
def reqCancelled : ShiftRequest :=
  ⟨55, 1, RequestType.ABSENCE, 7, 10, none, none, some "gone",
    RequestStatus.CANCELLED, some 2, false, some "USER_CANCEL"⟩

/-- Sample database with no requests. -/
def dbBase : DB := ⟨[uMember, uOperator, uMaster], [shiftMon], [asgMember], []⟩

/-- Sample database whose only request is a REJECTED one on the slot. -/
def dbRejected : DB :=
  ⟨[uMember, uOperator, uMaster], [shiftMon], [asgMember], [reqRejected]⟩

/-- Sample database whose only request is the CANCELLED row. -/
def dbCancelled : DB :=
  ⟨[uMember, uOperator, uMaster], [shiftMon], [asgMember], [reqCancelled]⟩

/-- Sample database whose only request is a PENDING one on the slot. -/
def dbPending : DB :=
  ⟨[uMember, uOperator, uMaster], [shiftMon], [asgMember], [reqPending]⟩

/-- Sample database with one resolvable and one dangling EXTRA request. -/
def dbExtra : DB :=
  ⟨[uMember, uOperator, uMaster], [shiftMon], [asgMember],
    [reqExtra, reqExtraDangling]⟩

/-- Sample database whose only request is the approved 12:00-13:00
absence. -/
def dbAbsWindow : DB :=
  ⟨[uMember, uOperator, uMaster], [shiftMon], [asgMember], [absWindow]⟩

/-- Sample database with the shift template but no assignment at all. -/
def dbNoAsg : DB := ⟨[uMember, uOperator, uMaster], [shiftMon], [], []⟩

/-- Properties every request created by the per-range loop of
submit_request satisfies: it targets the requested user, type, date, is
PENDING, respects the state-consistency guard against the effective slot
set, and no PENDING request of the database for the same key overlapped
its window. -/
def createdReqOk (db : DB) (uid : Nat) (ty : RequestType) (tdate : Nat)
    (slots : List (Nat × Nat)) (req : ShiftRequest) : Prop :=
  req.user_id = uid ∧ req.type = ty ∧ req.target_date = tdate ∧
  req.status = RequestStatus.PENDING ∧
  (ty = RequestType.ABSENCE →
    slots.contains (req.target_shift_id, tdate) = true) ∧
  (ty = RequestType.EXTRA →
    slots.contains (req.target_shift_id, tdate) = false) ∧
  (∀ dup ∈ db.requests, dup.user_id = uid → dup.target_date = tdate →
    dup.target_shift_id = req.target_shift_id →
    dup.status = RequestStatus.PENDING →
    overlaps req.target_start_time req.target_end_time
      dup.target_start_time dup.target_end_time = false)

/-- Request row created by a successful full-window absence submission of
uMember for the sample slot on day 7. -/
def reqCreatedAbs : ShiftRequest :=
  ⟨0, 1, RequestType.ABSENCE, 7, 10, none, none, some "need leave",
    RequestStatus.PENDING, none, false, none⟩

/-- Absence payload for the sample slot on day 7, full window, submitted
for oneself. -/
def payloadAbs : RequestCreate :=
  ⟨RequestType.ABSENCE, 7, some 10, none, none, "need leave", none⟩

/-- Absence payload targeting the master user. -/
def payloadAbsForMaster : RequestCreate :=
  ⟨RequestType.ABSENCE, 7, some 10, none, none, "for master", some 3⟩

lemma splitEvent_eq_applyCuts (ev : ScheduleEvent) (cuts : List ShiftRequest) :
    splitEvent ev cuts = applyCuts ev [ev] cuts := rfl

lemma applyCuts_nil (ev : ScheduleEvent) (segs : List ScheduleEvent) :
    applyCuts ev segs [] = segs := rfl

lemma applyCuts_cons (ev : ScheduleEvent) (segs : List ScheduleEvent)
    (r : ShiftRequest) (rest : List ShiftRequest) :
    applyCuts ev segs (r :: rest) =
      applyCuts ev (applyCut (cutWindow ev r).1 (cutWindow ev r).2 segs) rest := rfl

lemma subEvent_start (seg : ScheduleEvent) (st en : Nat) :
    (subEvent seg st en).start_time = st := rfl

lemma subEvent_end (seg : ScheduleEvent) (st en : Nat) :
    (subEvent seg st en).end_time = en := rfl

lemma subEvent_subEvent (seg : ScheduleEvent) (st en x y : Nat) :
    subEvent (subEvent seg st en) x y = subEvent seg x y := rfl

lemma subEvent_evPiece (ev : ScheduleEvent) (st en x y : Nat) :
    subEvent (evPiece ev st en) x y = subEvent ev x y := by
  unfold evPiece
  split_ifs <;> rfl

lemma covers_append (l1 l2 : List ScheduleEvent) (t : Nat) :
    covers (l1 ++ l2) t ↔ covers l1 t ∨ covers l2 t := by
  simp [covers, List.mem_append, or_and_right, exists_or]

lemma covers_cutSeg (a b : Nat) (seg : ScheduleEvent) (t : Nat) :
    covers (cutSeg a b seg) t ↔
      ((seg.start_time ≤ t ∧ t < seg.end_time) ∧ ¬ (a ≤ t ∧ t < b)) := by
  unfold covers cutSeg
  split_ifs with hd hl hr <;> simp [subEvent] <;> omega

lemma covers_applyCut (a b : Nat) (segs : List ScheduleEvent) (t : Nat) :
    covers (applyCut a b segs) t ↔ (covers segs t ∧ ¬ (a ≤ t ∧ t < b)) := by
  induction segs with
  | nil => simp [applyCut, covers]
  | cons s rest ih =>
      have hstep : applyCut a b (s :: rest) = cutSeg a b s ++ applyCut a b rest := by
        simp [applyCut]
      have hcons : covers (s :: rest) t ↔
          ((s.start_time ≤ t ∧ t < s.end_time) ∨ covers rest t) := by
        simp [covers]
      rw [hstep, covers_append, covers_cutSeg, ih, hcons]
      tauto

lemma covers_applyCuts (ev : ScheduleEvent) (cuts : List ShiftRequest) :
    ∀ (segs : List ScheduleEvent) (t : Nat),
      covers (applyCuts ev segs cuts) t ↔
        (covers segs t ∧ ∀ r ∈ cuts,
          ¬ ((cutWindow ev r).1 ≤ t ∧ t < (cutWindow ev r).2)) := by
  induction cuts with
  | nil => intro segs t; simp [applyCuts_nil]
  | cons r rest ih =>
      intro segs t
      rw [applyCuts_cons, ih, covers_applyCut]
      constructor
      · rintro ⟨⟨hc, hr⟩, hrest⟩
        refine ⟨hc, ?_⟩
        intro q hq
        rcases List.mem_cons.mp hq with h | h
        · subst h; exact hr
        · exact hrest q h
      · rintro ⟨hc, hall⟩
        exact ⟨⟨hc, hall r (List.mem_cons_self r rest)⟩,
          fun q hq => hall q (List.mem_cons_of_mem r hq)⟩

lemma evPiece_eq_subEvent (ev : ScheduleEvent) (st en : Nat)
    (h : ¬ (st = ev.start_time ∧ en = ev.end_time)) :
    evPiece ev st en = subEvent ev st en := if_neg h

lemma mem_cutSeg_bounds (a b : Nat) (seg p : ScheduleEvent)
    (hp : p ∈ cutSeg a b seg) :
    seg.start_time ≤ p.start_time ∧ p.end_time ≤ seg.end_time := by
  unfold cutSeg at hp
  split_ifs at hp with hd hl hr hr2 <;>
    simp only [List.mem_append, List.mem_singleton, List.mem_nil_iff,
      List.nil_append, List.append_nil, or_false, false_or] at hp
  · subst hp; omega
  · rcases hp with hp | hp <;> subst hp <;> simp [subEvent] <;> omega
  · subst hp; simp [subEvent]; omega
  · subst hp; simp [subEvent]; omega

lemma pairwise_cutSeg (a b : Nat) (hab : a < b) (seg : ScheduleEvent) :
    (cutSeg a b seg).Pairwise segSep := by
  unfold cutSeg
  split_ifs <;> simp [segSep, subEvent] <;> omega

lemma mem_applyCut (a b : Nat) (segs : List ScheduleEvent) (p : ScheduleEvent) :
    p ∈ applyCut a b segs ↔ ∃ s ∈ segs, p ∈ cutSeg a b s := by
  simp [applyCut, List.mem_flatMap]

lemma pairwise_applyCut (a b : Nat) (hab : a < b) (segs : List ScheduleEvent)
    (h : segs.Pairwise segSep) : (applyCut a b segs).Pairwise segSep := by
  induction segs with
  | nil => simp [applyCut]
  | cons s rest ih =>
      have hstep : applyCut a b (s :: rest) = cutSeg a b s ++ applyCut a b rest := by
        simp [applyCut]
      rw [hstep]
      rcases List.pairwise_cons.mp h with ⟨hsr, hrest⟩
      refine List.pairwise_append.mpr ⟨pairwise_cutSeg a b hab s, ih hrest, ?_⟩
      intro p hp q hq
      rcases (mem_applyCut a b rest q).mp hq with ⟨s', hs', hq'⟩
      have hb1 := mem_cutSeg_bounds a b s p hp
      have hb2 := mem_cutSeg_bounds a b s' q hq'
      have hss' := hsr s' hs'
      unfold segSep at *
      omega

lemma pairwise_applyCuts (ev : ScheduleEvent) (cuts : List ShiftRequest)
    (hwf : ∀ r ∈ cuts, wfCut ev r) :
    ∀ segs, segs.Pairwise segSep → (applyCuts ev segs cuts).Pairwise segSep := by
  induction cuts with
  | nil => intro segs h; simpa [applyCuts_nil] using h
  | cons r rest ih =>
      intro segs h
      rw [applyCuts_cons]
      exact ih (fun q hq => hwf q (List.mem_cons_of_mem r hq)) _
        (pairwise_applyCut _ _ (hwf r (List.mem_cons_self r rest)) segs h)

lemma segInv_subEvent (ev seg : ScheduleEvent) (hseg : segInv ev seg)
    (st en : Nat) (hst : seg.start_time ≤ st) (hen : en ≤ seg.end_time)
    (hne : st < en) (hproper : st ≠ ev.start_time ∨ en ≠ ev.end_time) :
    segInv ev (subEvent seg st en) := by
  obtain ⟨hb1, hb2, _, hcan⟩ := hseg
  refine ⟨by simpa [subEvent] using le_trans hb1 hst,
    by simpa [subEvent] using le_trans hen hb2,
    by simpa [subEvent] using hne, ?_⟩
  rw [subEvent_start, subEvent_end]
  rw [hcan, subEvent_evPiece, evPiece_eq_subEvent]
  tauto

lemma mem_cutSeg_inv (ev : ScheduleEvent) (a b : Nat) (seg : ScheduleEvent)
    (hseg : segInv ev seg) : ∀ p ∈ cutSeg a b seg, segInv ev p := by
  intro p hp
  have hb1 := hseg.1
  have hb2 := hseg.2.1
  unfold cutSeg at hp
  split_ifs at hp with hd hl hr hr2 <;>
    simp only [List.mem_append, List.mem_singleton, List.mem_nil_iff,
      List.nil_append, List.append_nil, or_false, false_or] at hp
  · subst hp; exact hseg
  · rcases hp with hp | hp <;> subst hp
    · exact segInv_subEvent ev seg hseg _ _ le_rfl (by omega) hl (Or.inr (by omega))
    · exact segInv_subEvent ev seg hseg _ _ (by omega) le_rfl hr (Or.inl (by omega))
  · subst hp
    exact segInv_subEvent ev seg hseg _ _ le_rfl (by omega) hl (Or.inr (by omega))
  · subst hp
    exact segInv_subEvent ev seg hseg _ _ (by omega) le_rfl hr2 (Or.inl (by omega))

lemma mem_applyCut_inv (ev : ScheduleEvent) (a b : Nat)
    (segs : List ScheduleEvent) (h : ∀ s ∈ segs, segInv ev s) :
    ∀ p ∈ applyCut a b segs, segInv ev p := by
  intro p hp
  rcases (mem_applyCut a b segs p).mp hp with ⟨s, hs, hp2⟩
  exact mem_cutSeg_inv ev a b s (h s hs) p hp2

lemma mem_applyCuts_inv (ev : ScheduleEvent) (cuts : List ShiftRequest) :
    ∀ segs, (∀ s ∈ segs, segInv ev s) →
      ∀ p ∈ applyCuts ev segs cuts, segInv ev p := by
  induction cuts with
  | nil => intro segs h; simpa [applyCuts_nil] using h
  | cons r rest ih =>
      intro segs h
      rw [applyCuts_cons]
      exact ih _ (mem_applyCut_inv ev _ _ segs h)

lemma pcovers_nil (t : Nat) : ¬ pcovers [] t := by simp [pcovers]

lemma pcovers_unique : ∀ (l1 l2 : List (Nat × Nat)),
    l1.Pairwise (fun p q => p.2 < q.1) → l2.Pairwise (fun p q => p.2 < q.1) →
    (∀ p ∈ l1, p.1 < p.2) → (∀ p ∈ l2, p.1 < p.2) →
    (∀ t, pcovers l1 t ↔ pcovers l2 t) → l1 = l2 := by
  intro l1
  induction l1 with
  | nil =>
      intro l2 _ _ _ hne2 hcov
      cases l2 with
      | nil => rfl
      | cons q t2 =>
          exfalso
          have hq : pcovers (q :: t2) q.1 :=
            ⟨q, List.mem_cons_self q t2, le_rfl, hne2 q (List.mem_cons_self q t2)⟩
          exact pcovers_nil q.1 ((hcov q.1).mpr hq)
  | cons p t1 ih =>
      intro l2 hs1 hs2 hne1 hne2 hcov
      cases l2 with
      | nil =>
          exfalso
          have hp : pcovers (p :: t1) p.1 :=
            ⟨p, List.mem_cons_self p t1, le_rfl, hne1 p (List.mem_cons_self p t1)⟩
          exact pcovers_nil p.1 ((hcov p.1).mp hp)
      | cons q t2 =>
          have hp : p.1 < p.2 := hne1 p (List.mem_cons_self p t1)
          have hq : q.1 < q.2 := hne2 q (List.mem_cons_self q t2)
          have hsep1 : ∀ r ∈ t1, p.2 < r.1 := (List.pairwise_cons.mp hs1).1
          have hsep2 : ∀ r ∈ t2, q.2 < r.1 := (List.pairwise_cons.mp hs2).1
          have covLB1 : ∀ t, pcovers (p :: t1) t → p.1 ≤ t := by
            rintro t ⟨r, hr, h1, h2⟩
            rcases List.mem_cons.mp hr with h | h
            · subst h; exact h1
            · have := hsep1 r h; omega
          have covLB2 : ∀ t, pcovers (q :: t2) t → q.1 ≤ t := by
            rintro t ⟨r, hr, h1, h2⟩
            rcases List.mem_cons.mp hr with h | h
            · subst h; exact h1
            · have := hsep2 r h; omega
          have h11 : q.1 ≤ p.1 :=
            covLB2 p.1 ((hcov p.1).mp ⟨p, List.mem_cons_self p t1, le_rfl, hp⟩)
          have h12 : p.1 ≤ q.1 :=
            covLB1 q.1 ((hcov q.1).mpr ⟨q, List.mem_cons_self q t2, le_rfl, hq⟩)
          have hstart : p.1 = q.1 := le_antisymm h12 h11
          have hend : p.2 = q.2 := by
            rcases Nat.lt_trichotomy p.2 q.2 with hlt | heq | hgt
            · exfalso
              have hc2 : pcovers (q :: t2) p.2 :=
                ⟨q, List.mem_cons_self q t2, by omega, hlt⟩
              rcases (hcov p.2).mpr hc2 with ⟨r, hr, h1, h2⟩
              rcases List.mem_cons.mp hr with h | h
              · subst h; omega
              · have := hsep1 r h; omega
            · exact heq
            · exfalso
              have hc1 : pcovers (p :: t1) q.2 :=
                ⟨p, List.mem_cons_self p t1, by omega, hgt⟩
              rcases (hcov q.2).mp hc1 with ⟨r, hr, h1, h2⟩
              rcases List.mem_cons.mp hr with h | h
              · subst h; omega
              · have := hsep2 r h; omega
          have htail : ∀ t, pcovers t1 t ↔ pcovers t2 t := by
            intro t
            constructor
            · rintro ⟨r, hr, h1, h2⟩
              have hgt : p.2 < t := lt_of_lt_of_le (hsep1 r hr) h1
              have hc : pcovers (q :: t2) t :=
                (hcov t).mp ⟨r, List.mem_cons_of_mem p hr, h1, h2⟩
              rcases hc with ⟨r2, hr2, h12a, h22⟩
              rcases List.mem_cons.mp hr2 with h | h
              · exact absurd (h ▸ h22) (by omega)
              · exact ⟨r2, h, h12a, h22⟩
            · rintro ⟨r, hr, h1, h2⟩
              have hgt : q.2 < t := lt_of_lt_of_le (hsep2 r hr) h1
              have hc : pcovers (p :: t1) t :=
                (hcov t).mpr ⟨r, List.mem_cons_of_mem q hr, h1, h2⟩
              rcases hc with ⟨r2, hr2, h12a, h22⟩
              rcases List.mem_cons.mp hr2 with h | h
              · exact absurd (h ▸ h22) (by omega)
              · exact ⟨r2, h, h12a, h22⟩
          have hpq : p = q := Prod.ext hstart hend
          have hts : t1 = t2 :=
            ih t2 (List.pairwise_cons.mp hs1).2 (List.pairwise_cons.mp hs2).2
              (fun r hr => hne1 r (List.mem_cons_of_mem p hr))
              (fun r hr => hne2 r (List.mem_cons_of_mem q hr)) htail
          rw [hpq, hts]

lemma covers_iff_pcovers (l : List ScheduleEvent) (t : Nat) :
    covers l t ↔ pcovers (timesOf l) t := by
  simp [covers, pcovers, timesOf, List.mem_map]

lemma pairwise_timesOf (l : List ScheduleEvent) (h : l.Pairwise segSep) :
    (timesOf l).Pairwise (fun p q => p.2 < q.1) := by
  unfold timesOf
  exact (List.pairwise_map).mpr h

lemma timesOf_reconstruct (ev : ScheduleEvent) :
    ∀ (l : List ScheduleEvent),
      (∀ s ∈ l, s = evPiece ev s.start_time s.end_time) →
      (timesOf l).map (fun q => evPiece ev q.1 q.2) = l := by
  intro l
  induction l with
  | nil => intro _; rfl
  | cons s rest ih =>
      intro h
      have hs := h s (List.mem_cons_self s rest)
      have hrest := ih (fun r hr => h r (List.mem_cons_of_mem s hr))
      simp only [timesOf, List.map_cons]
      exact congrArg₂ List.cons hs.symm hrest

lemma segInv_self (ev : ScheduleEvent) (hev : ev.start_time < ev.end_time) :
    segInv ev ev := by
  refine ⟨le_rfl, le_rfl, hev, ?_⟩
  unfold evPiece
  rw [if_pos ⟨rfl, rfl⟩]

lemma covers_singleton (ev : ScheduleEvent) (t : Nat) :
    covers [ev] t ↔ (ev.start_time ≤ t ∧ t < ev.end_time) := by
  simp [covers]

lemma covers_splitEvent (ev : ScheduleEvent) (cuts : List ShiftRequest) (t : Nat) :
    covers (splitEvent ev cuts) t ↔
      ((ev.start_time ≤ t ∧ t < ev.end_time) ∧ ∀ r ∈ cuts,
        ¬ ((cutWindow ev r).1 ≤ t ∧ t < (cutWindow ev r).2)) := by
  rw [splitEvent_eq_applyCuts, covers_applyCuts, covers_singleton]

lemma splitEvent_inv (ev : ScheduleEvent) (cuts : List ShiftRequest)
    (hev : ev.start_time < ev.end_time) :
    ∀ p ∈ splitEvent ev cuts, segInv ev p := by
  rw [splitEvent_eq_applyCuts]
  refine mem_applyCuts_inv ev cuts [ev] ?_
  intro s hs
  rw [List.mem_singleton.mp hs]
  exact segInv_self ev hev

lemma splitEvent_pairwise (ev : ScheduleEvent) (cuts : List ShiftRequest)
    (hwf : ∀ r ∈ cuts, wfCut ev r) :
    (splitEvent ev cuts).Pairwise segSep := by
  rw [splitEvent_eq_applyCuts]
  exact pairwise_applyCuts ev cuts hwf [ev] (by simp)

lemma splitEvent_perm_eq (ev : ScheduleEvent) (cuts cuts' : List ShiftRequest)
    (hev : ev.start_time < ev.end_time)
    (hwf : ∀ r ∈ cuts, wfCut ev r) (hperm : cuts.Perm cuts') :
    splitEvent ev cuts = splitEvent ev cuts' := by
  have hwf' : ∀ r ∈ cuts', wfCut ev r := fun r hr => hwf r (hperm.mem_iff.mpr hr)
  have hinv1 := splitEvent_inv ev cuts hev
  have hinv2 := splitEvent_inv ev cuts' hev
  have hpw1 := splitEvent_pairwise ev cuts hwf
  have hpw2 := splitEvent_pairwise ev cuts' hwf'
  have hcov : ∀ t, covers (splitEvent ev cuts) t ↔ covers (splitEvent ev cuts') t := by
    intro t
    rw [covers_splitEvent, covers_splitEvent]
    constructor <;> rintro ⟨hc, hall⟩
    · exact ⟨hc, fun r hr => hall r (hperm.mem_iff.mpr hr)⟩
    · exact ⟨hc, fun r hr => hall r (hperm.mem_iff.mp hr)⟩
  have htimes : timesOf (splitEvent ev cuts) = timesOf (splitEvent ev cuts') := by
    apply pcovers_unique
    · exact pairwise_timesOf _ hpw1
    · exact pairwise_timesOf _ hpw2
    · intro p hp
      rcases List.mem_map.mp hp with ⟨s, hs, hfs⟩
      rw [← hfs]
      exact (hinv1 s hs).2.2.1
    · intro p hp
      rcases List.mem_map.mp hp with ⟨s, hs, hfs⟩
      rw [← hfs]
      exact (hinv2 s hs).2.2.1
    · intro t
      rw [← covers_iff_pcovers, ← covers_iff_pcovers]
      exact hcov t
  have h1 := timesOf_reconstruct ev (splitEvent ev cuts) (fun s hs => (hinv1 s hs).2.2.2)
  have h2 := timesOf_reconstruct ev (splitEvent ev cuts') (fun s hs => (hinv2 s hs).2.2.2)
  rw [← h1, ← h2, htimes]

/-- C1: for a BASE event with interval [s, e) whose grouped absence list
holds exactly one approved ABSENCE request, week_events's splitting step
yields: with a window [a, b) satisfying s < a < b < e, exactly the two
BASE segments [s, a) and [b, e); with no window (both bounds null), zero
segments. -/
theorem claim_C1 (ev : ScheduleEvent) (reqs : List ShiftRequest)
    (r : ShiftRequest) (habs : absencesFor reqs ev = [r]) :
    (∀ a b, r.target_start_time = some a → r.target_end_time = some b →
      ev.start_time < a → a < b → b < ev.end_time →
      splitEvent ev (absencesFor reqs ev) =
        [subEvent ev ev.start_time a, subEvent ev b ev.end_time]) ∧
    (r.target_start_time = none → r.target_end_time = none →
      ev.start_time < ev.end_time →
      splitEvent ev (absencesFor reqs ev) = []) := by
  constructor
  · intro a b hsa hsb h1 h2 h3
    rw [habs]
    have hwin : cutWindow ev r = (a, b) := by simp [cutWindow, hsa, hsb]
    have hstep : splitEvent ev [r] = applyCut a b [ev] := by
      rw [splitEvent_eq_applyCuts, applyCuts_cons, applyCuts_nil, hwin]
    have hone : applyCut a b [ev] = cutSeg a b ev := by simp [applyCut]
    rw [hstep, hone]
    unfold cutSeg
    rw [if_neg (by omega), if_pos h1, if_pos h3]
    rfl
  · intro hsa hsb hlt
    rw [habs]
    have hwin : cutWindow ev r = (ev.start_time, ev.end_time) := by
      simp [cutWindow, hsa, hsb]
    have hstep : splitEvent ev [r] = applyCut ev.start_time ev.end_time [ev] := by
      rw [splitEvent_eq_applyCuts, applyCuts_cons, applyCuts_nil, hwin]
    have hone : applyCut ev.start_time ev.end_time [ev] =
        cutSeg ev.start_time ev.end_time ev := by simp [applyCut]
    rw [hstep, hone]
    unfold cutSeg
    rw [if_neg (by omega), if_neg (by omega), if_neg (by omega)]
    rfl

/-- Witness for C1 at the sample 09:00-18:00 base event: the 12:00-13:00
approved absence yields the segments 09:00-12:00 and 13:00-18:00, and the
windowless absence removes the interval entirely. -/
theorem claim_C1_witness :
    (absencesFor [absWindow] evC = [absWindow] ∧
      splitEvent evC (absencesFor [absWindow] evC) =
        [subEvent evC evC.start_time 720, subEvent evC 780 evC.end_time]) ∧
    (absencesFor [absFull] evC = [absFull] ∧
      splitEvent evC (absencesFor [absFull] evC) = []) := by
  refine ⟨⟨by decide, ?_⟩, ⟨by decide, ?_⟩⟩
  · exact (claim_C1 evC [absWindow] absWindow (by decide)).1 720 780 rfl rfl
      (by decide) (by decide) (by decide)
  · exact (claim_C1 evC [absFull] absFull (by decide)).2 rfl rfl (by decide)

/-- C2: for a nonempty base interval and any finite list of genuine
absence cut windows, the surviving segments cover exactly the base
interval minus the union of the cut windows, the result is invariant
under permutation of the cut list, segments come left-to-right by start
time, and no zero-length segment is emitted. -/
theorem claim_C2 (ev : ScheduleEvent) (cuts cuts' : List ShiftRequest)
    (hev : ev.start_time < ev.end_time)
    (hwf : ∀ r ∈ cuts, wfCut ev r) (hperm : cuts.Perm cuts') :
    (∀ t, covers (splitEvent ev cuts) t ↔
      ((ev.start_time ≤ t ∧ t < ev.end_time) ∧
        ∀ r ∈ cuts, ¬ ((cutWindow ev r).1 ≤ t ∧ t < (cutWindow ev r).2))) ∧
    splitEvent ev cuts = splitEvent ev cuts' ∧
    (splitEvent ev cuts).Pairwise (fun p q => p.start_time < q.start_time) ∧
    (∀ seg ∈ splitEvent ev cuts, seg.start_time < seg.end_time) := by
  refine ⟨covers_splitEvent ev cuts,
    splitEvent_perm_eq ev cuts cuts' hev hwf hperm, ?_, ?_⟩
  · have hpw := splitEvent_pairwise ev cuts hwf
    have hinv := splitEvent_inv ev cuts hev
    refine List.Pairwise.imp_of_mem ?_ hpw
    intro p q hp hq hr
    have h1 := (hinv p hp).2.2.1
    unfold segSep at hr
    omega
  · intro seg hs
    exact (splitEvent_inv ev cuts hev seg hs).2.2.1

/-- Witness for C2 at the sample base event with the 12:00-13:00 and
10:00-11:00 approved absences, applied in both orders. -/
theorem claim_C2_witness :
    (∀ t, covers (splitEvent evC [absWindow, absWindow2]) t ↔
      ((evC.start_time ≤ t ∧ t < evC.end_time) ∧
        ∀ r ∈ [absWindow, absWindow2],
          ¬ ((cutWindow evC r).1 ≤ t ∧ t < (cutWindow evC r).2))) ∧
    splitEvent evC [absWindow, absWindow2] =
      splitEvent evC [absWindow2, absWindow] ∧
    (splitEvent evC [absWindow, absWindow2]).Pairwise
      (fun p q => p.start_time < q.start_time) ∧
    (∀ seg ∈ splitEvent evC [absWindow, absWindow2],
      seg.start_time < seg.end_time) :=
  claim_C2 evC [absWindow, absWindow2] [absWindow2, absWindow]
    (by decide) (by decide) (by decide)

/-- Counterexample to C9: in the sample database the BASE event carries
validity tag valid_from = some 0, yet both sub-segments produced by the
12:00-13:00 absence split in week_events carry valid_from = none and
valid_to = none: the validity-window tag is not preserved on split
segments. -/
theorem claim_C9_counterexample :
    (baseEvents dbAbsWindow 7 none).map (fun e => (e.valid_from, e.valid_to)) =
      [(some 0, none)] ∧
    (week_events dbAbsWindow 7 none).map
        (fun e => (e.start_time, e.end_time, e.valid_from, e.valid_to)) =
      [(540, 720, none, none), (780, 1080, none, none)] := by
  exact ⟨by decide, by decide⟩

/-- C9 amended: every segment produced by the absence-splitting step
agrees with the original BASE event on user_id, user_name, role, date,
shift_id, shift_name, location and source; the validity-window tag is
preserved only on an untouched event — a genuinely split sub-segment
carries valid_from = none and valid_to = none instead. -/
theorem claim_C9_amended (ev : ScheduleEvent) (cuts : List ShiftRequest)
    (hev : ev.start_time < ev.end_time) :
    ∀ seg ∈ splitEvent ev cuts,
      seg.user_id = ev.user_id ∧ seg.user_name = ev.user_name ∧
      seg.role = ev.role ∧ seg.date = ev.date ∧ seg.shift_id = ev.shift_id ∧
      seg.shift_name = ev.shift_name ∧ seg.loc = ev.loc ∧
      seg.source = ev.source ∧
      (seg = ev ∨ (seg.valid_from = none ∧ seg.valid_to = none)) := by
  intro seg hs
  have hcan := (splitEvent_inv ev cuts hev seg hs).2.2.2
  unfold evPiece at hcan
  split_ifs at hcan with h
  · subst hcan
    exact ⟨rfl, rfl, rfl, rfl, rfl, rfl, rfl, rfl, Or.inl rfl⟩
  · rw [hcan]
    exact ⟨rfl, rfl, rfl, rfl, rfl, rfl, rfl, rfl, Or.inr ⟨rfl, rfl⟩⟩

/-- Witness for the amended C9 at the sample event and absence,
instantiated at the left surviving sub-segment 09:00-12:00. -/
theorem claim_C9_amended_witness :
    subEvent evC evC.start_time 720 ∈ splitEvent evC [absWindow] ∧
    ((subEvent evC evC.start_time 720).user_id = evC.user_id ∧
      (subEvent evC evC.start_time 720).user_name = evC.user_name ∧
      (subEvent evC evC.start_time 720).role = evC.role ∧
      (subEvent evC evC.start_time 720).date = evC.date ∧
      (subEvent evC evC.start_time 720).shift_id = evC.shift_id ∧
      (subEvent evC evC.start_time 720).shift_name = evC.shift_name ∧
      (subEvent evC evC.start_time 720).loc = evC.loc ∧
      (subEvent evC evC.start_time 720).source = evC.source ∧
      (subEvent evC evC.start_time 720 = evC ∨
        ((subEvent evC evC.start_time 720).valid_from = none ∧
          (subEvent evC evC.start_time 720).valid_to = none))) :=
  ⟨by decide,
   claim_C9_amended evC [absWindow] (by decide)
     (subEvent evC evC.start_time 720) (by decide)⟩

lemma mem_cutSeg_source (a b : Nat) (seg p : ScheduleEvent)
    (hp : p ∈ cutSeg a b seg) : p.source = seg.source := by
  unfold cutSeg at hp
  split_ifs at hp with hd hl hr hr2 <;>
    simp only [List.mem_append, List.mem_singleton, List.mem_nil_iff,
      List.nil_append, List.append_nil, or_false, false_or] at hp
  · rw [hp]
  · rcases hp with hp | hp <;> rw [hp] <;> rfl
  · rw [hp]; rfl
  · rw [hp]; rfl

lemma mem_applyCuts_source (ev : ScheduleEvent) (cuts : List ShiftRequest)
    (c : String) : ∀ segs, (∀ s ∈ segs, s.source = c) →
      ∀ p ∈ applyCuts ev segs cuts, p.source = c := by
  induction cuts with
  | nil => intro segs h; simpa [applyCuts_nil] using h
  | cons r rest ih =>
      intro segs h
      rw [applyCuts_cons]
      refine ih _ ?_
      intro p hp
      rcases (mem_applyCut _ _ segs p).mp hp with ⟨s, hs, hp2⟩
      rw [mem_cutSeg_source _ _ s p hp2]
      exact h s hs

lemma mem_baseEvents_source (db : DB) (start : Nat) (uf : Option Nat) :
    ∀ e ∈ baseEvents db start uf, e.source = "BASE" := by
  intro e he
  unfold baseEvents at he
  rcases List.mem_flatMap.mp he with ⟨off, _, he2⟩
  rcases List.mem_filterMap.mp he2 with ⟨asu, _, hdef⟩
  simp only [Option.ite_none_right_eq_some, Option.some.injEq] at hdef
  rw [← hdef.2]
  rfl

lemma mem_filteredEvents_source (db : DB) (start : Nat) (uf : Option Nat) :
    ∀ e ∈ filteredEvents db start uf, e.source = "BASE" := by
  intro e he
  unfold filteredEvents at he
  rcases List.mem_flatMap.mp he with ⟨ev, hev, he2⟩
  rw [splitEvent_eq_applyCuts] at he2
  refine mem_applyCuts_source ev _ "BASE" [ev] ?_ e he2
  intro s hs
  rw [List.mem_singleton.mp hs]
  exact mem_baseEvents_source db start uf ev hev

lemma length_filterMap_eq_filter_isSome {α β : Type} (f : α → Option β) :
    ∀ l : List α,
      (l.filterMap f).length = (l.filter (fun x => (f x).isSome)).length := by
  intro l
  induction l with
  | nil => rfl
  | cons x xs ih =>
      cases hfx : f x <;>
        simp [List.filterMap_cons, List.filter_cons, hfx, ih]

/-- C3: week_events returns the surviving BASE-derived segments (all
tagged source BASE) followed by the EXTRA events; each approved EXTRA
request of the window with resolvable shift and user contributes exactly
one EXTRA event using its partial window when present (else the full
template window) with null validity fields, and a request whose shift or
user row is missing is skipped without failing the query. -/
theorem claim_C3 (db : DB) (start : Nat) (uf : Option Nat) :
    week_events db start uf = filteredEvents db start uf ++ extraEvents db start uf ∧
    (∀ e ∈ filteredEvents db start uf, e.source = "BASE") ∧
    (∀ r ∈ approvedRequestsInWeek db start uf, r.type = RequestType.EXTRA →
      (∀ sh u, findShift db r.target_shift_id = some sh →
        findUser db r.user_id = some u →
        mkExtra db r = some
          { user_id := u.id
            user_name := u.name
            role := u.role
            date := r.target_date
            start_time := r.target_start_time.getD sh.start_time
            end_time := r.target_end_time.getD sh.end_time
            shift_id := sh.id
            shift_name := sh.name
            loc := sh.loc
            valid_from := none
            valid_to := none
            source := "EXTRA" }) ∧
      ((findShift db r.target_shift_id = none ∨ findUser db r.user_id = none) →
        mkExtra db r = none)) ∧
    extraEvents db start uf =
      ((approvedRequestsInWeek db start uf).filter
        (fun r => decide (r.type = RequestType.EXTRA))).filterMap (mkExtra db) ∧
    (extraEvents db start uf).length =
      (((approvedRequestsInWeek db start uf).filter
        (fun r => decide (r.type = RequestType.EXTRA))).filter
        (fun r => (findShift db r.target_shift_id).isSome &&
          (findUser db r.user_id).isSome)).length := by
  refine ⟨rfl, mem_filteredEvents_source db start uf, ?_, rfl, ?_⟩
  · intro r _ _
    constructor
    · intro sh u hsh hu
      unfold mkExtra
      rw [hsh, hu]
    · intro hmiss
      unfold mkExtra
      rcases hmiss with hm | hm
      · rw [hm]
      · rw [hm]
        cases findShift db r.target_shift_id <;> rfl
  · unfold extraEvents
    rw [length_filterMap_eq_filter_isSome]
    congr 1
    apply List.filter_congr
    intro r _
    unfold mkExtra
    cases findShift db r.target_shift_id <;> cases findUser db r.user_id <;> rfl

/-- Witness for C3 at the sample database holding one resolvable and one
dangling approved EXTRA request. -/
theorem claim_C3_witness :
    week_events dbExtra 7 none =
      filteredEvents dbExtra 7 none ++ extraEvents dbExtra 7 none ∧
    (∀ e ∈ filteredEvents dbExtra 7 none, e.source = "BASE") ∧
    (∀ r ∈ approvedRequestsInWeek dbExtra 7 none, r.type = RequestType.EXTRA →
      (∀ sh u, findShift dbExtra r.target_shift_id = some sh →
        findUser dbExtra r.user_id = some u →
        mkExtra dbExtra r = some
          { user_id := u.id
            user_name := u.name
            role := u.role
            date := r.target_date
            start_time := r.target_start_time.getD sh.start_time
            end_time := r.target_end_time.getD sh.end_time
            shift_id := sh.id
            shift_name := sh.name
            loc := sh.loc
            valid_from := none
            valid_to := none
            source := "EXTRA" }) ∧
      ((findShift dbExtra r.target_shift_id = none ∨
          findUser dbExtra r.user_id = none) →
        mkExtra dbExtra r = none)) ∧
    extraEvents dbExtra 7 none =
      ((approvedRequestsInWeek dbExtra 7 none).filter
        (fun r => decide (r.type = RequestType.EXTRA))).filterMap (mkExtra dbExtra) ∧
    (extraEvents dbExtra 7 none).length =
      (((approvedRequestsInWeek dbExtra 7 none).filter
        (fun r => decide (r.type = RequestType.EXTRA))).filter
        (fun r => (findShift dbExtra r.target_shift_id).isSome &&
          (findUser dbExtra r.user_id).isSome)).length :=
  claim_C3 dbExtra 7 none

/-- Counterexample to C5: approve_request does not refuse a REJECTED
request — invoked by an operator on a REJECTED request it succeeds and
sets the status to APPROVED, so REJECTED is not terminal for approve. -/
theorem claim_C5_counterexample :
    reqRejected.status = RequestStatus.REJECTED ∧
    approve_request uOperator reqRejected =
      Except.ok { reqRejected with
        status := RequestStatus.APPROVED
        operator_id := some uOperator.id } :=
  ⟨rfl, rfl⟩

/-- C5 amended: approve succeeds exactly when the status is neither
CANCELLED nor APPROVED (so both PENDING and REJECTED requests can be
approved), reject succeeds exactly when the status is neither CANCELLED
nor REJECTED (so both PENDING and APPROVED requests can be rejected),
and CANCELLED is terminal for both. -/
theorem claim_C5_amended (current : User) (req : ShiftRequest)
    (hrole : roleOrder UserRole.OPERATOR ≤ roleOrder current.role) :
    (req.status = RequestStatus.PENDING ∨ req.status = RequestStatus.REJECTED →
      approve_request current req = Except.ok { req with
        status := RequestStatus.APPROVED
        operator_id := some current.id }) ∧
    (req.status = RequestStatus.CANCELLED ∨ req.status = RequestStatus.APPROVED →
      ∃ e, approve_request current req = Except.error e) ∧
    (req.status = RequestStatus.PENDING ∨ req.status = RequestStatus.APPROVED →
      reject_request current req = Except.ok { req with
        status := RequestStatus.REJECTED
        cancel_reason := some "REJECTED"
        operator_id := some current.id }) ∧
    (req.status = RequestStatus.CANCELLED ∨ req.status = RequestStatus.REJECTED →
      ∃ e, reject_request current req = Except.error e) := by
  have hnr : ¬ roleOrder current.role < roleOrder UserRole.OPERATOR := by omega
  refine ⟨?_, ?_, ?_, ?_⟩
  · intro h
    unfold approve_request
    rw [if_neg hnr, if_neg (by rcases h with h | h <;> simp [h]),
      if_neg (by rcases h with h | h <;> simp [h])]
  · rintro (h | h)
    · exact ⟨⟨400, "취소된 신청은 승인할 수 없습니다"⟩, by
        unfold approve_request
        rw [if_neg hnr, if_pos h]⟩
    · refine ⟨⟨400, "이미 승인된 신청입니다"⟩, ?_⟩
      unfold approve_request
      rw [if_neg hnr, if_neg (by simp [h]), if_pos h]
  · intro h
    unfold reject_request
    rw [if_neg hnr, if_neg (by rcases h with h | h <;> simp [h])]
  · intro h
    refine ⟨⟨400, "이미 처리된 신청입니다"⟩, ?_⟩
    unfold reject_request
    rw [if_neg hnr, if_pos (by rcases h with h | h <;> simp [h])]

/-- Witness for the amended C5: the operator approves a REJECTED request,
cannot approve a CANCELLED one, rejects an APPROVED request, and cannot
reject a CANCELLED one. -/
theorem claim_C5_amended_witness :
    approve_request uOperator reqRejected = Except.ok { reqRejected with
      status := RequestStatus.APPROVED
      operator_id := some uOperator.id } ∧
    (∃ e, approve_request uOperator reqCancelled = Except.error e) ∧
    reject_request uOperator reqApproved = Except.ok { reqApproved with
      status := RequestStatus.REJECTED
      cancel_reason := some "REJECTED"
      operator_id := some uOperator.id } ∧
    (∃ e, reject_request uOperator reqCancelled = Except.error e) :=
  ⟨(claim_C5_amended uOperator reqRejected (by decide)).1 (Or.inr rfl),
   (claim_C5_amended uOperator reqCancelled (by decide)).2.1 (Or.inl rfl),
   (claim_C5_amended uOperator reqApproved (by decide)).2.2.1 (Or.inr rfl),
   (claim_C5_amended uOperator reqCancelled (by decide)).2.2.2 (Or.inl rfl)⟩

lemma time_window_from_range_error (sh eh : Option Nat) (e : Err)
    (h : time_window_from_range sh eh = Except.error e) : e.status_code = 400 := by
  unfold time_window_from_range at h
  repeat' split at h
  all_goals first
    | exact Except.noConfusion h
    | (injection h with h2; subst h2; rfl)

lemma processRange_error_409 (db : DB) (uid : Nat) (ty : RequestType)
    (tdate : Nat) (slots : List (Nat × Nat)) (reason : String)
    (r : RequestRange) (e : Err)
    (h : processRange db uid ty tdate slots reason r = Except.error e)
    (h409 : e.status_code = 409) :
    e.detail = "이미 동일한 시간에 대기 중인 신청이 있습니다" := by
  unfold processRange at h
  repeat' split at h
  all_goals first
    | exact Except.noConfusion h
    | (injection h with h2
       subst h2
       revert h409
       decide)
    | (rename_i e2 heq
       injection h with h2
       subst h2
       have hw := time_window_from_range_error _ _ _ heq
       omega)

lemma processRanges_error_409 (db : DB) (uid : Nat) (ty : RequestType)
    (tdate : Nat) (slots : List (Nat × Nat)) (reason : String) :
    ∀ (l : List RequestRange) (e : Err),
      processRanges db uid ty tdate slots reason l = Except.error e →
      e.status_code = 409 →
      e.detail = "이미 동일한 시간에 대기 중인 신청이 있습니다" := by
  intro l
  induction l with
  | nil =>
      intro e h _
      exact Except.noConfusion h
  | cons r rest ih =>
      intro e h h409
      unfold processRanges at h
      split at h
      · injection h with h2
        subst h2
        exact processRange_error_409 db uid ty tdate slots reason r _
          (by assumption) h409
      · split at h
        · injection h with h2
          subst h2
          exact ih _ (by assumption) h409
        · exact Except.noConfusion h

lemma submit_request_error_409 (db : DB) (current : User) (p : RequestCreate)
    (e : Err) (h : submit_request db current p = Except.error e)
    (h409 : e.status_code = 409) :
    e.detail = "이미 동일한 시간에 대기 중인 신청이 있습니다" := by
  unfold submit_request at h
  repeat' split at h
  all_goals first
    | exact Except.noConfusion h
    | (injection h with h2
       subst h2
       revert h409
       decide)
    | exact processRanges_error_409 _ _ _ _ _ _ _ _ h h409

lemma approve_request_error_code (current : User) (req : ShiftRequest)
    (e : Err) (h : approve_request current req = Except.error e) :
    e.status_code = 400 ∨ e.status_code = 403 := by
  unfold approve_request at h
  repeat' split at h
  all_goals first
    | exact Except.noConfusion h
    | (injection h with h2; rw [← h2]; first | exact Or.inl rfl | exact Or.inr rfl)

lemma reject_request_error_code (current : User) (req : ShiftRequest)
    (e : Err) (h : reject_request current req = Except.error e) :
    e.status_code = 400 ∨ e.status_code = 403 := by
  unfold reject_request at h
  repeat' split at h
  all_goals first
    | exact Except.noConfusion h
    | (injection h with h2; rw [← h2]; first | exact Or.inl rfl | exact Or.inr rfl)

lemma cancel_request_error_code (current : User) (req : ShiftRequest)
    (e : Err) (h : cancel_request current req = Except.error e) :
    e.status_code = 400 ∨ e.status_code = 403 := by
  unfold cancel_request at h
  repeat' split at h
  all_goals first
    | exact Except.noConfusion h
    | (injection h with h2; rw [← h2]; first | exact Or.inl rfl | exact Or.inr rfl)

lemma approve_request_route_error_code (db : DB) (current : User)
    (rid : Nat) (e : Err)
    (h : approve_request_route db current rid = Except.error e) :
    e.status_code = 400 ∨ e.status_code = 403 ∨ e.status_code = 404 := by
  unfold approve_request_route at h
  split at h
  · injection h with h2
    subst h2
    exact Or.inr (Or.inl rfl)
  split at h
  · injection h with h2
    subst h2
    exact Or.inr (Or.inr rfl)
  rename_i req heq
  rcases approve_request_error_code current req e h with h4 | h4
  · exact Or.inl h4
  · exact Or.inr (Or.inl h4)

lemma reject_request_route_error_code (db : DB) (current : User)
    (rid : Nat) (e : Err)
    (h : reject_request_route db current rid = Except.error e) :
    e.status_code = 400 ∨ e.status_code = 403 ∨ e.status_code = 404 := by
  unfold reject_request_route at h
  split at h
  · injection h with h2
    subst h2
    exact Or.inr (Or.inl rfl)
  split at h
  · injection h with h2
    subst h2
    exact Or.inr (Or.inr rfl)
  rename_i req heq
  rcases reject_request_error_code current req e h with h4 | h4
  · exact Or.inl h4
  · exact Or.inr (Or.inl h4)

lemma cancel_request_route_error_code (db : DB) (current : User)
    (rid : Nat) (e : Err)
    (h : cancel_request_route db current rid = Except.error e) :
    e.status_code = 400 ∨ e.status_code = 403 ∨ e.status_code = 404 := by
  unfold cancel_request_route at h
  split at h
  · injection h with h2
    subst h2
    exact Or.inr (Or.inl rfl)
  split at h
  · injection h with h2
    subst h2
    exact Or.inr (Or.inr rfl)
  rename_i req heq
  rcases cancel_request_error_code current req e h with h4 | h4
  · exact Or.inl h4
  · exact Or.inr (Or.inl h4)

/-- Counterexample to C8: approving an already-CANCELLED request through
the full endpoint is rejected with status code 400 — the same code used
for weekday-mismatch and malformed-window validation errors (shown
alongside) — not with the 409 conflict code, so the stale transition is
not surfaced distinctly from validation errors. -/
theorem claim_C8_counterexample :
    approve_request_route dbCancelled uOperator 55 =
      Except.error ⟨400, "취소된 신청은 승인할 수 없습니다"⟩ ∧
    time_window_from_range (some 13) (some 12) =
      Except.error ⟨400, "시간 범위가 올바르지 않습니다"⟩ ∧
    (400 : Nat) ≠ 409 :=
  ⟨rfl, rfl, by decide⟩

/-- C8 amended: approving an already-CANCELLED request is rejected, but
with a 400 error of the same class as validation errors; the approve,
reject and cancel endpoints (role dependency, unknown-id lookup and
status guards included) fail only with 400, 403 or 404 — never with the
409 conflict code, which is raised solely by the duplicate/
overlapping-pending guard of submit_request. -/
theorem claim_C8_amended :
    (∀ (db : DB) (current : User) (rid : Nat) (req : ShiftRequest),
      roleOrder UserRole.OPERATOR ≤ roleOrder current.role →
      findRequest db rid = some req →
      req.status = RequestStatus.CANCELLED →
      approve_request_route db current rid =
        Except.error ⟨400, "취소된 신청은 승인할 수 없습니다"⟩) ∧
    (∀ (db : DB) (current : User) (rid : Nat) (e : Err),
      approve_request_route db current rid = Except.error e →
      e.status_code = 400 ∨ e.status_code = 403 ∨ e.status_code = 404) ∧
    (∀ (db : DB) (current : User) (rid : Nat) (e : Err),
      reject_request_route db current rid = Except.error e →
      e.status_code = 400 ∨ e.status_code = 403 ∨ e.status_code = 404) ∧
    (∀ (db : DB) (current : User) (rid : Nat) (e : Err),
      cancel_request_route db current rid = Except.error e →
      e.status_code = 400 ∨ e.status_code = 403 ∨ e.status_code = 404) ∧
    (∀ (db : DB) (current : User) (p : RequestCreate) (e : Err),
      submit_request db current p = Except.error e →
      e.status_code = 409 →
      e.detail = "이미 동일한 시간에 대기 중인 신청이 있습니다") := by
  refine ⟨?_, approve_request_route_error_code, reject_request_route_error_code,
    cancel_request_route_error_code, submit_request_error_409⟩
  intro db current rid req hrole hfind hst
  unfold approve_request_route
  rw [if_neg (by omega)]
  simp only [hfind]
  unfold approve_request
  rw [if_neg (by omega), if_pos hst]

/-- Witness for the amended C8: the concrete CANCELLED row yields the 400
error through the full endpoint, an unknown id yields the 404 covered by
the error-code enumeration, and the concrete pending-duplicate submission
yields the 409 conflict whose detail the theorem pins down. -/
theorem claim_C8_amended_witness :
    approve_request_route dbCancelled uOperator 55 =
      Except.error ⟨400, "취소된 신청은 승인할 수 없습니다"⟩ ∧
    approve_request_route dbCancelled uOperator 999 =
      Except.error ⟨404, "신청 건을 찾을 수 없습니다"⟩ ∧
    (Err.status_code ⟨404, "신청 건을 찾을 수 없습니다"⟩ = 400 ∨
      Err.status_code ⟨404, "신청 건을 찾을 수 없습니다"⟩ = 403 ∨
      Err.status_code ⟨404, "신청 건을 찾을 수 없습니다"⟩ = 404) ∧
    Err.detail ⟨409, "이미 동일한 시간에 대기 중인 신청이 있습니다"⟩ =
      "이미 동일한 시간에 대기 중인 신청이 있습니다" :=
  ⟨claim_C8_amended.1 dbCancelled uOperator 55 reqCancelled (by decide)
     (by decide) rfl,
   rfl,
   claim_C8_amended.2.1 dbCancelled uOperator 999
     ⟨404, "신청 건을 찾을 수 없습니다"⟩ rfl,
   claim_C8_amended.2.2.2.2 dbPending uMember payloadAbs
     ⟨409, "이미 동일한 시간에 대기 중인 신청이 있습니다"⟩ rfl rfl⟩

lemma approvedRequestsInWeek_insert (db : DB) (start : Nat) (uf : Option Nat)
    (l1 l2 : List ShiftRequest) (r : ShiftRequest)
    (hr : ¬ r.status = RequestStatus.APPROVED) :
    approvedRequestsInWeek { db with requests := l1 ++ r :: l2 } start uf =
      approvedRequestsInWeek { db with requests := l1 ++ l2 } start uf := by
  unfold approvedRequestsInWeek
  simp [List.filter_append, List.filter_cons, hr]

lemma week_events_ignores_nonapproved (db : DB) (start : Nat) (uf : Option Nat)
    (l1 l2 : List ShiftRequest) (r : ShiftRequest)
    (hr : ¬ r.status = RequestStatus.APPROVED) :
    week_events { db with requests := l1 ++ r :: l2 } start uf =
      week_events { db with requests := l1 ++ l2 } start uf := by
  have hreq := approvedRequestsInWeek_insert db start uf l1 l2 r hr
  unfold week_events filteredEvents extraEvents
  simp only [hreq]
  rfl

/-- C6: cancel_request succeeds only from PENDING or APPROVED; cancelling
an APPROVED request sets cancelled_after_approval and records the cancel
reason, cancelling a PENDING one leaves the flag at its prior value
(false for a freshly created request), and because week_events honors
only APPROVED requests a cancelled request contributes no events to any
subsequent week_events call. -/
theorem claim_C6 (current : User) (req : ShiftRequest)
    (hperm : ¬ (current.role = UserRole.MEMBER ∧ ¬ req.user_id = current.id)) :
    (req.status = RequestStatus.APPROVED →
      cancel_request current req = Except.ok { req with
        status := RequestStatus.CANCELLED
        cancel_reason := some "USER_CANCEL"
        cancelled_after_approval := true
        operator_id := some current.id }) ∧
    (req.status = RequestStatus.PENDING →
      cancel_request current req = Except.ok { req with
        status := RequestStatus.CANCELLED
        cancel_reason := some "USER_CANCEL"
        operator_id := some current.id }) ∧
    (req.status = RequestStatus.REJECTED ∨ req.status = RequestStatus.CANCELLED →
      ∃ e, cancel_request current req = Except.error e) ∧
    (∀ (db : DB) (start : Nat) (uf : Option Nat)
      (l1 l2 : List ShiftRequest) (q : ShiftRequest),
      ¬ q.status = RequestStatus.APPROVED →
      week_events { db with requests := l1 ++ q :: l2 } start uf =
        week_events { db with requests := l1 ++ l2 } start uf) := by
  have hrole : ¬ roleOrder current.role < roleOrder UserRole.MEMBER := by
    cases current.role <;> decide
  refine ⟨?_, ?_, ?_, ?_⟩
  · intro h
    unfold cancel_request
    rw [if_neg hrole, if_neg hperm, if_neg (by simp [h])]
    simp [h]
  · intro h
    unfold cancel_request
    rw [if_neg hrole, if_neg hperm, if_neg (by simp [h])]
    simp [h]
  · intro h
    refine ⟨⟨400, "대기 또는 승인된 건만 취소할 수 있습니다"⟩, ?_⟩
    unfold cancel_request
    rw [if_neg hrole, if_neg hperm,
      if_pos (by rcases h with h | h <;> simp [h])]
  · intro db start uf l1 l2 q hq
    exact week_events_ignores_nonapproved db start uf l1 l2 q hq

/-- Witness for C6 at the sample member and requests: cancelling an
APPROVED request, a PENDING request, failing on a REJECTED one, and the
removal of a CANCELLED request is invisible to week_events. -/
theorem claim_C6_witness :
    cancel_request uMember reqApproved = Except.ok { reqApproved with
      status := RequestStatus.CANCELLED
      cancel_reason := some "USER_CANCEL"
      cancelled_after_approval := true
      operator_id := some uMember.id } ∧
    cancel_request uMember reqPending = Except.ok { reqPending with
      status := RequestStatus.CANCELLED
      cancel_reason := some "USER_CANCEL"
      operator_id := some uMember.id } ∧
    (∃ e, cancel_request uMember reqRejected = Except.error e) ∧
    week_events { dbBase with requests := [] ++ reqCancelled :: [] } 7 none =
      week_events { dbBase with requests := [] ++ [] } 7 none :=
  ⟨(claim_C6 uMember reqApproved (by decide)).1 rfl,
   (claim_C6 uMember reqPending (by decide)).2.1 rfl,
   (claim_C6 uMember reqRejected (by decide)).2.2.1 (Or.inl rfl),
   (claim_C6 uMember reqCancelled (by decide)).2.2.2 dbBase 7 none [] []
     reqCancelled (by decide)⟩

lemma processRange_ok (db : DB) (uid : Nat) (ty : RequestType) (tdate : Nat)
    (slots : List (Nat × Nat)) (reason : String) (r : RequestRange)
    (req : ShiftRequest)
    (h : processRange db uid ty tdate slots reason r = Except.ok req) :
    createdReqOk db uid ty tdate slots req ∧
    req.target_shift_id = r.shift_id := by
  unfold processRange at h
  split at h
  · exact Except.noConfusion h
  rename_i shift hfs
  split at h
  · exact Except.noConfusion h
  rename_i hwd
  split at h
  · exact Except.noConfusion h
  rename_i st en hweq
  split at h
  · exact Except.noConfusion h
  rename_i hbound
  split at h
  · exact Except.noConfusion h
  rename_i hover
  split at h
  · exact Except.noConfusion h
  rename_i habs
  split at h
  · exact Except.noConfusion h
  rename_i hextra
  injection h with h2
  subst h2
  refine ⟨⟨rfl, rfl, rfl, rfl, ?_, ?_, ?_⟩, rfl⟩
  · intro hty
    show slots.contains (r.shift_id, tdate) = true
    cases hc : slots.contains (r.shift_id, tdate)
    · exact absurd ⟨hty, hc⟩ habs
    · rfl
  · intro hty
    show slots.contains (r.shift_id, tdate) = false
    cases hc : slots.contains (r.shift_id, tdate)
    · rfl
    · exact absurd ⟨hty, hc⟩ hextra
  · intro dup hdup h1 h2 h3 h4
    have hov : pendingOverlapExists db uid tdate r.shift_id st en = false := by
      cases hpe : pendingOverlapExists db uid tdate r.shift_id st en
      · rfl
      · exact absurd hpe hover
    unfold pendingOverlapExists at hov
    have hmem : dup ∈ db.requests.filter (fun q =>
        decide (q.user_id = uid) && decide (q.target_date = tdate) &&
        decide (q.target_shift_id = r.shift_id) &&
        decide (q.status = RequestStatus.PENDING)) := by
      rw [List.mem_filter]
      refine ⟨hdup, ?_⟩
      simp only [Bool.and_eq_true, decide_eq_true_eq]
      exact ⟨⟨⟨h1, h2⟩, h3⟩, h4⟩
    have hall := List.any_eq_false.mp hov dup hmem
    show overlaps st en dup.target_start_time dup.target_end_time = false
    cases hc : overlaps st en dup.target_start_time dup.target_end_time
    · rfl
    · exact absurd hc hall

lemma processRanges_ok (db : DB) (uid : Nat) (ty : RequestType) (tdate : Nat)
    (slots : List (Nat × Nat)) (reason : String) :
    ∀ (l : List RequestRange) (res : List ShiftRequest),
      processRanges db uid ty tdate slots reason l = Except.ok res →
      (∀ req ∈ res, createdReqOk db uid ty tdate slots req) ∧
      (∀ r ∈ l, ∃ req ∈ res, req.target_shift_id = r.shift_id) := by
  intro l
  induction l with
  | nil =>
      intro res h
      injection h with h2
      subst h2
      exact ⟨by simp, by simp⟩
  | cons r rest ih =>
      intro res h
      unfold processRanges at h
      split at h
      · exact Except.noConfusion h
      rename_i req0 hreq0
      split at h
      · exact Except.noConfusion h
      rename_i res0 hres0
      injection h with h2
      subst h2
      have hp := processRange_ok db uid ty tdate slots reason r req0 hreq0
      have hrest := ih res0 hres0
      constructor
      · intro req hreq
        rcases List.mem_cons.mp hreq with hmem | hmem
        · rw [hmem]
          exact hp.1
        · exact hrest.1 req hmem
      · intro r2 hr2
        rcases List.mem_cons.mp hr2 with hmem | hmem
        · rw [hmem]
          exact ⟨req0, List.mem_cons_self req0 res0, hp.2⟩
        · rcases hrest.2 r2 hmem with ⟨req, hm, he⟩
          exact ⟨req, List.mem_cons_of_mem req0 hm, he⟩

lemma submit_request_ok (db : DB) (current : User) (p : RequestCreate)
    (res : List ShiftRequest)
    (h : submit_request db current p = Except.ok res) :
    ∃ tu, findUser db (p.user_id.getD current.id) = some tu ∧
      tu.role = UserRole.MEMBER ∧
      processRanges db (p.user_id.getD current.id) p.type p.target_date
        (effectiveSlots db (p.user_id.getD current.id) p.target_date)
        p.reason (payloadRanges p) = Except.ok res := by
  unfold submit_request at h
  split at h
  · exact Except.noConfusion h
  split at h
  · exact Except.noConfusion h
  rename_i tu htu
  split at h
  · exact Except.noConfusion h
  rename_i hrole
  split at h
  · exact Except.noConfusion h
  split at h
  · exact Except.noConfusion h
  split at h
  · exact Except.noConfusion h
  exact ⟨tu, htu, not_not.mp hrole, h⟩

/-- C4: submit_request checks each range against the effective slot set
obtained from week_events for the week of the target date filtered to the
target user: on success every created request — and every submitted
range — satisfies that an ABSENCE targets a present slot and an EXTRA an
absent one; equivalently a violating range can never yield a successful
call. -/
theorem claim_C4 (db : DB) (current : User) (p : RequestCreate) :
    (∀ res, submit_request db current p = Except.ok res →
      ∀ req ∈ res,
        (req.type = RequestType.ABSENCE →
          (effectiveSlots db (p.user_id.getD current.id) p.target_date).contains
            (req.target_shift_id, p.target_date) = true) ∧
        (req.type = RequestType.EXTRA →
          (effectiveSlots db (p.user_id.getD current.id) p.target_date).contains
            (req.target_shift_id, p.target_date) = false)) ∧
    (∀ res, submit_request db current p = Except.ok res →
      ∀ r ∈ payloadRanges p,
        (p.type = RequestType.ABSENCE →
          (effectiveSlots db (p.user_id.getD current.id) p.target_date).contains
            (r.shift_id, p.target_date) = true) ∧
        (p.type = RequestType.EXTRA →
          (effectiveSlots db (p.user_id.getD current.id) p.target_date).contains
            (r.shift_id, p.target_date) = false)) := by
  constructor
  · intro res hok req hreq
    rcases submit_request_ok db current p res hok with ⟨tu, htu, hrole, hpr⟩
    have hc := (processRanges_ok _ _ _ _ _ _ _ _ hpr).1 req hreq
    constructor
    · intro hty
      exact hc.2.2.2.2.1 (by rw [← hc.2.1]; exact hty)
    · intro hty
      exact hc.2.2.2.2.2.1 (by rw [← hc.2.1]; exact hty)
  · intro res hok r hr
    rcases submit_request_ok db current p res hok with ⟨tu, htu, hrole, hpr⟩
    have hpo := processRanges_ok _ _ _ _ _ _ _ _ hpr
    rcases hpo.2 r hr with ⟨req, hreq, hsid⟩
    have hc := hpo.1 req hreq
    constructor
    · intro hty
      rw [← hsid]
      exact hc.2.2.2.2.1 hty
    · intro hty
      rw [← hsid]
      exact hc.2.2.2.2.2.1 hty

/-- Witness for C4: the concrete absence submission succeeds against the
assigned slot and the state-consistency condition holds for the created
request; against a database with no assignment the same submission is
rejected with the validation error. -/
theorem claim_C4_witness :
    submit_request dbBase uMember payloadAbs = Except.ok [reqCreatedAbs] ∧
    ((reqCreatedAbs.type = RequestType.ABSENCE →
      (effectiveSlots dbBase (payloadAbs.user_id.getD uMember.id)
        payloadAbs.target_date).contains
          (reqCreatedAbs.target_shift_id, payloadAbs.target_date) = true) ∧
    (reqCreatedAbs.type = RequestType.EXTRA →
      (effectiveSlots dbBase (payloadAbs.user_id.getD uMember.id)
        payloadAbs.target_date).contains
          (reqCreatedAbs.target_shift_id, payloadAbs.target_date) = false)) ∧
    submit_request dbNoAsg uMember payloadAbs =
      Except.error ⟨400, "결근 신청은 현재 배정된 시간에서만 가능합니다"⟩ :=
  ⟨rfl,
   (claim_C4 dbBase uMember payloadAbs).1 [reqCreatedAbs] rfl reqCreatedAbs
     (List.mem_singleton.mpr rfl),
   rfl⟩

/-- Counterexample to C7: an existing non-cancelled (here REJECTED)
request for the same (user, date, template) whose absent window counts as
the full range overlaps the requested window, yet the submission is not
rejected with a conflict error — it succeeds and creates a request,
because the duplicate guard only consults PENDING requests. -/
theorem claim_C7_counterexample :
    reqRejected.status = RequestStatus.REJECTED ∧
    reqRejected.user_id = 1 ∧ reqRejected.target_date = 7 ∧
    reqRejected.target_shift_id = 10 ∧
    overlaps none none reqRejected.target_start_time
      reqRejected.target_end_time = true ∧
    submit_request dbRejected uMember payloadAbs = Except.ok [reqCreatedAbs] :=
  ⟨rfl, rfl, rfl, rfl, rfl, rfl⟩

/-- C7 amended: only PENDING requests are consulted by the duplicate
guard — a successful submission implies that no existing PENDING request
for (target user, date, template) overlapped the requested window (an
absent window counting as the full range); non-PENDING rows such as
REJECTED ones do not trigger the conflict rejection. -/
theorem claim_C7_amended (db : DB) (current : User) (p : RequestCreate)
    (res : List ShiftRequest)
    (hok : submit_request db current p = Except.ok res) :
    ∀ req ∈ res, ∀ dup ∈ db.requests,
      dup.user_id = p.user_id.getD current.id →
      dup.target_date = p.target_date →
      dup.target_shift_id = req.target_shift_id →
      dup.status = RequestStatus.PENDING →
      overlaps req.target_start_time req.target_end_time
        dup.target_start_time dup.target_end_time = false := by
  intro req hreq dup hdup h1 h2 h3 h4
  rcases submit_request_ok db current p res hok with ⟨tu, htu, hrole, hpr⟩
  exact ((processRanges_ok _ _ _ _ _ _ _ _ hpr).1 req hreq).2.2.2.2.2.2
    dup hdup h1 h2 h3 h4

/-- Witness for the amended C7: the submission over the REJECTED row
succeeds and the theorem's no-pending-overlap guarantee holds for it,
while the same submission over a PENDING row is rejected with the 409
conflict error. -/
theorem claim_C7_amended_witness :
    submit_request dbRejected uMember payloadAbs = Except.ok [reqCreatedAbs] ∧
    (∀ req ∈ [reqCreatedAbs], ∀ dup ∈ dbRejected.requests,
      dup.user_id = payloadAbs.user_id.getD uMember.id →
      dup.target_date = payloadAbs.target_date →
      dup.target_shift_id = req.target_shift_id →
      dup.status = RequestStatus.PENDING →
      overlaps req.target_start_time req.target_end_time
        dup.target_start_time dup.target_end_time = false) ∧
    submit_request dbPending uMember payloadAbs =
      Except.error ⟨409, "이미 동일한 시간에 대기 중인 신청이 있습니다"⟩ :=
  ⟨rfl, claim_C7_amended dbRejected uMember payloadAbs [reqCreatedAbs] rfl, rfl⟩

/-- C10: a submission whose target user exists with role OPERATOR or
MASTER is rejected with the dedicated 400 error regardless of anything
else in the payload (in particular even when the actor targets themself),
and every successfully created request targets a user whose role is
MEMBER. -/
theorem claim_C10 (db : DB) (current : User) (p : RequestCreate) :
    (∀ tu, findUser db (p.user_id.getD current.id) = some tu →
      (tu.role = UserRole.OPERATOR ∨ tu.role = UserRole.MASTER) →
      submit_request db current p =
        Except.error ⟨400, "마스터/운영자는 근무 변경 신청 대상에서 제외됩니다"⟩) ∧
    (∀ res, submit_request db current p = Except.ok res →
      ∃ tu, findUser db (p.user_id.getD current.id) = some tu ∧
        tu.role = UserRole.MEMBER ∧
        ∀ req ∈ res, req.user_id = p.user_id.getD current.id) := by
  constructor
  · intro tu htu hrole
    have hro : ¬ roleOrder current.role < roleOrder UserRole.MEMBER := by
      cases current.role <;> decide
    unfold submit_request
    rw [if_neg hro]
    simp only [htu]
    rw [if_pos (by rcases hrole with h | h <;> simp [h])]
  · intro res hok
    rcases submit_request_ok db current p res hok with ⟨tu, htu, hrole, hpr⟩
    exact ⟨tu, htu, hrole,
      fun req hreq => ((processRanges_ok _ _ _ _ _ _ _ _ hpr).1 req hreq).1⟩

/-- Witness for C10: the member submitting for the master is rejected
with the dedicated error, an operator submitting for themself is rejected
the same way, and the successful member submission targets a MEMBER. -/
theorem claim_C10_witness :
    submit_request dbBase uMember payloadAbsForMaster =
      Except.error ⟨400, "마스터/운영자는 근무 변경 신청 대상에서 제외됩니다"⟩ ∧
    submit_request dbBase uOperator
      { payloadAbsForMaster with user_id := some 2 } =
      Except.error ⟨400, "마스터/운영자는 근무 변경 신청 대상에서 제외됩니다"⟩ ∧
    (∃ tu, findUser dbBase (payloadAbs.user_id.getD uMember.id) = some tu ∧
      tu.role = UserRole.MEMBER ∧
      ∀ req ∈ [reqCreatedAbs],
        req.user_id = payloadAbs.user_id.getD uMember.id) :=
  ⟨(claim_C10 dbBase uMember payloadAbsForMaster).1 uMaster rfl (Or.inr rfl),
   (claim_C10 dbBase uOperator
      { payloadAbsForMaster with user_id := some 2 }).1 uOperator rfl
      (Or.inl rfl),
   (claim_C10 dbBase uMember payloadAbs).2 [reqCreatedAbs] rfl⟩

end WorkTime
